import Mathlib

/-!
Verification development for the scoring and scan-cycle core of
`src/chart_scanner.py` (class `ScannerWorker`, helper `PropGuardConfig`).

The embedding uses exact rational arithmetic (`ℚ`) for the Python floats,
`Option` for the fallible market-data fetches (a `none` models a failed
fetch, whose attribute access would raise and be swallowed by the
`try/except` of `analyze_symbol`), and Python's `round` (round half to
even) is modelled exactly by `roundHalfEven`.
-/

/-- Python's built-in `round` to an integer: round half to even.
For a tie (`Int.fract q = 1/2`) the even neighbour is chosen, which
equals `2 * round (q / 2)`; otherwise ordinary rounding applies. -/
def roundHalfEven (q : ℚ) : ℤ :=
  if Int.fract q = 1 / 2 then 2 * round (q / 2) else round q

/-- `round(x, 1)` from the source: one decimal place, ties to even. -/
def round1 (q : ℚ) : ℚ :=
  (roundHalfEven (10 * q) : ℚ) / 10

/-- `PropGuardConfig.ATR_MULTIPLIER` (the only config constant used by the
scoring/sizing math itself). -/
def ATR_MULTIPLIER : ℚ := 1.5

/-- The directional bias strings `"BULLISH"` / `"BEARISH"` / `"NEUTRAL"`. -/
inductive Bias
| BULLISH
| BEARISH
| NEUTRAL
deriving DecidableEq

/-- The last indicator row `curr = df.iloc[-1]` of `analyze_symbol`:
close price, EMA(200), ATR(14), RSI(14), ADX(14) and the Donchian
channel bounds `DCU_20_20` / `DCL_20_20`. -/
structure IndicatorRow where
  close : ℚ
  ema : ℚ
  atr : ℚ
  rsi : ℚ
  adx : ℚ
  dcu : ℚ
  dcl : ℚ
deriving DecidableEq

/-- The live quote `tick = mt5.symbol_info_tick(symbol)`. -/
structure Tick where
  bid : ℚ
  ask : ℚ
deriving DecidableEq

/-- The symbol metadata `sym_info = mt5.symbol_info(symbol)`:
`point`, `trade_tick_value`, `volume_min`, `volume_max`, `volume_step`. -/
structure SymbolInfo where
  point : ℚ
  trade_tick_value : ℚ
  volume_min : ℚ
  volume_max : ℚ
  volume_step : ℚ
deriving DecidableEq

/-- The market data `analyze_symbol` fetches for one symbol.  `curr` is
`none` when `copy_rates_from_pos` returns `None` or fewer than 250 bars
(so the indicator row is unavailable); `tick` is `none` when
`symbol_info_tick` fails; `sym_info` is `none` when `symbol_info` fails
(its attribute access then raises into the blanket `except`). -/
structure SymbolInput where
  symbol : String
  curr : Option IndicatorRow
  tick : Option Tick
  sym_info : Option SymbolInfo
deriving DecidableEq

/-- The per-symbol result dictionary returned by `analyze_symbol`. -/
structure Opportunity where
  symbol : String
  score : ℚ
  bias : Bias
  price : ℚ
  sl : ℚ
  tp : ℚ
  lots : ℚ
  adx : ℚ
deriving DecidableEq

/-- Bias determination (`analyze_symbol`, step 3): BULLISH when
`close > ema`, BEARISH when `close < ema`, otherwise NEUTRAL. -/
def biasOf (close ema : ℚ) : Bias :=
  if close > ema then Bias.BULLISH
  else if close < ema then Bias.BEARISH
  else Bias.NEUTRAL

/-- Sub-score A, trend strength: `(0.6 * trend_str) + (0.4 * adx_norm)`
with `trend_str = min(ema_dist / (atr * 2.0), 1.0)` and
`adx_norm = min(max((adx - 20) / 25, 0), 1)`. -/
def score_trend (curr : IndicatorRow) : ℚ :=
  let ema_dist := |curr.close - curr.ema|
  let trend_str := min (ema_dist / (curr.atr * 2.0)) 1.0
  let adx_norm := min (max ((curr.adx - 20) / 25) 0) 1
  (0.6 * trend_str) + (0.4 * adx_norm)

/-- Sub-score B, momentum alignment: starts at `0.0`, set by the
BULLISH / BEARISH branches only. -/
def score_mom (bias : Bias) (curr : IndicatorRow) : ℚ :=
  if bias = Bias.BULLISH then max (min ((curr.rsi - 50) / 25) 1) 0
  else if bias = Bias.BEARISH then max (min ((50 - curr.rsi) / 25) 1) 0
  else 0.0

/-- Sub-score C, volatility quality:
`min(max((atr_pct - 0.0005) / 0.002, 0), 1)` with `atr_pct = atr / close`. -/
def score_vol (curr : IndicatorRow) : ℚ :=
  let atr_pct := curr.atr / curr.close
  min (max ((atr_pct - 0.0005) / 0.002) 0) 1

/-- Distance to the Donchian channel: `abs(dcu - ask)` in the BULLISH
branch, `abs(bid - dcl)` in the `else` branch (BEARISH and NEUTRAL). -/
def dist_to_break (bias : Bias) (curr : IndicatorRow) (tick : Tick) : ℚ :=
  if bias = Bias.BULLISH then |curr.dcu - tick.ask| else |tick.bid - curr.dcl|

/-- Sub-score D, structure proximity:
`1.0 - min(dist_to_break / (atr * 1.5), 1.0)`. -/
def score_struct (bias : Bias) (curr : IndicatorRow) (tick : Tick) : ℚ :=
  1.0 - min (dist_to_break bias curr tick / (curr.atr * 1.5)) 1.0

/-- Sub-score E, liquidity quality:
`max(1.0 - spread_points / (atr_points * 0.2), 0.0)` with
`spread_points = (ask - bid) / point` and `atr_points = atr / point`. -/
def score_liq (curr : IndicatorRow) (tick : Tick) (sym_info : SymbolInfo) : ℚ :=
  let spread_points := (tick.ask - tick.bid) / sym_info.point
  let atr_points := curr.atr / sym_info.point
  max (1.0 - spread_points / (atr_points * 0.2)) 0.0

/-- The final weighted score:
`round(100 * (0.30*A + 0.20*B + 0.15*C + 0.25*D + 0.10*E), 1)`. -/
def final_score (bias : Bias) (curr : IndicatorRow) (tick : Tick)
    (sym_info : SymbolInfo) : ℚ :=
  round1 (100 * ((0.30 * score_trend curr) +
                 (0.20 * score_mom bias curr) +
                 (0.15 * score_vol curr) +
                 (0.25 * score_struct bias curr tick) +
                 (0.10 * score_liq curr tick sym_info)))

/-- Trade entry: `tick.ask` in the BULLISH branch, `tick.bid` in the
`else` branch. -/
def entry_of (bias : Bias) (tick : Tick) : ℚ :=
  if bias = Bias.BULLISH then tick.ask else tick.bid

/-- Stop loss: `entry - atr * ATR_MULTIPLIER` (BULLISH) or
`entry + atr * ATR_MULTIPLIER` (`else` branch). -/
def sl_of (bias : Bias) (curr : IndicatorRow) (tick : Tick) : ℚ :=
  if bias = Bias.BULLISH then entry_of bias tick - curr.atr * ATR_MULTIPLIER
  else entry_of bias tick + curr.atr * ATR_MULTIPLIER

/-- Take profit: `entry + (entry - sl) * rr_ratio` (BULLISH) or
`entry - (sl - entry) * rr_ratio` (`else` branch). -/
def tp_of (bias : Bias) (curr : IndicatorRow) (tick : Tick) (rr_ratio : ℚ) : ℚ :=
  if bias = Bias.BULLISH then
    entry_of bias tick + (entry_of bias tick - sl_of bias curr tick) * rr_ratio
  else
    entry_of bias tick - (sl_of bias curr tick - entry_of bias tick) * rr_ratio

/-- `ScannerWorker.calculate_lot`.  The source refetches the account
balance and the symbol metadata inside the method; here they are passed
in (`sym_info` stays an `Option` to keep the `if not sym_info` guard). -/
def calculate_lot (risk_per_trade balance : ℚ) (sym_info : Option SymbolInfo)
    (sl_points : ℚ) : ℚ :=
  let risk_money := balance * (risk_per_trade / 100.0)
  match sym_info with
  | none => 0.0
  | some info =>
    if info.trade_tick_value = 0 ∨ sl_points = 0 then 0.0
    else
      let raw_lot := risk_money / (sl_points * info.trade_tick_value)
      let step := info.volume_step
      let lot := (roundHalfEven (raw_lot / step) : ℚ) * step
      if lot ≤ info.volume_max then max lot info.volume_min else info.volume_max

/-- The body of `analyze_symbol` after the three fetches succeed: bias,
five sub-scores, final score, trade setup and lot size, packed into the
result dictionary. -/
def build_opportunity (risk_per_trade rr_ratio balance : ℚ) (symbol : String)
    (curr : IndicatorRow) (tick : Tick) (sym_info : SymbolInfo) : Opportunity :=
  let bias := biasOf curr.close curr.ema
  let entry := entry_of bias tick
  let sl := sl_of bias curr tick
  let sl_points := |entry - sl| / sym_info.point
  { symbol := symbol
  , score := final_score bias curr tick sym_info
  , bias := bias
  , price := entry
  , sl := sl
  , tp := tp_of bias curr tick rr_ratio
  , lots := calculate_lot risk_per_trade balance (some sym_info) sl_points
  , adx := curr.adx }

/-- `ScannerWorker.analyze_symbol`: returns `none` (the `return None` /
`except` paths) when any of the three fetches is missing, otherwise the
fully built opportunity.  In the `ℚ` embedding the arithmetic itself is
total, so no further exception source remains. -/
def analyze_symbol (risk_per_trade rr_ratio balance : ℚ)
    (inp : SymbolInput) : Option Opportunity :=
  match inp.curr, inp.tick, inp.sym_info with
  | some curr, some tick, some sym_info =>
      some (build_opportunity risk_per_trade rr_ratio balance inp.symbol curr tick sym_info)
  | _, _, _ => none

/-- One pass of the `while self.is_running` scan-loop body over the
active symbols: analyze each, keep the successes, then
`opportunities.sort(key=lambda x: x['score'], reverse=True)` — a stable
sort to non-increasing score, modelled by the stable `List.mergeSort`
with `le a b ↔ b.score ≤ a.score`. -/
def scan_cycle (risk_per_trade rr_ratio balance : ℚ)
    (inputs : List SymbolInput) : List Opportunity :=
  (inputs.filterMap (analyze_symbol risk_per_trade rr_ratio balance)).mergeSort
    (fun a b => decide (b.score ≤ a.score))

/-- The mutable configuration fields of `ScannerWorker`. -/
structure ScannerWorker where
  is_running : Bool
  active_symbols : List String
  risk_per_trade : ℚ
  rr_ratio : ℚ
  initial_equity : ℚ
deriving DecidableEq

/-- `ScannerWorker.__init__`: the field values before any start command
(`set_config`) runs. -/
def ScannerWorker.init : ScannerWorker :=
  { is_running := false
  , active_symbols := []
  , risk_per_trade := 0.5
  , rr_ratio := 1.5
  , initial_equity := 0.0 }

/-- `ScannerWorker.set_config`: installs the user-chosen symbols, risk
percent and reward:risk ratio. -/
def ScannerWorker.set_config (w : ScannerWorker) (symbols : List String)
    (risk rr : ℚ) : ScannerWorker :=
  { w with active_symbols := symbols, risk_per_trade := risk, rr_ratio := rr }

/-! Helper lemmas about the rounding model and the clamping shapes. -/

theorem floor_le_roundHalfEven (q : ℚ) : ⌊q⌋ ≤ roundHalfEven q := by
  unfold roundHalfEven
  split
  · rename_i h
    have hq : q = (⌊q⌋ : ℚ) + 1 / 2 := by
      have h2 := Int.floor_add_fract q
      rw [h] at h2
      linarith
    rcases Int.even_or_odd ⌊q⌋ with ⟨m, hm⟩ | ⟨m, hm⟩
    · have h2 : q / 2 = (m : ℚ) + 1 / 4 := by
        rw [hq, hm]; push_cast; ring
      have h3 : round (q / 2) = m := by
        rw [h2, round_int_add]
        norm_num [round_eq]
      rw [h3]
      omega
    · have h2 : q / 2 = (m : ℚ) + 3 / 4 := by
        rw [hq, hm]; push_cast; ring
      have h3 : round (q / 2) = m + 1 := by
        rw [h2, round_int_add]
        norm_num [round_eq]
      rw [h3]
      omega
  · rw [round_eq]
    exact Int.floor_mono (by linarith)

theorem roundHalfEven_le_ceil (q : ℚ) : roundHalfEven q ≤ ⌈q⌉ := by
  unfold roundHalfEven
  split
  · rename_i h
    have hq : q = (⌊q⌋ : ℚ) + 1 / 2 := by
      have h2 := Int.floor_add_fract q
      rw [h] at h2
      linarith
    have hceil : ⌊q⌋ + 1 ≤ ⌈q⌉ := by
      have h1 : ((⌊q⌋ : ℚ)) < (⌈q⌉ : ℚ) := by
        have h2 := Int.le_ceil q
        linarith [hq]
      exact_mod_cast h1
    rcases Int.even_or_odd ⌊q⌋ with ⟨m, hm⟩ | ⟨m, hm⟩
    · have h2 : q / 2 = (m : ℚ) + 1 / 4 := by
        rw [hq, hm]; push_cast; ring
      have h3 : round (q / 2) = m := by
        rw [h2, round_int_add]
        norm_num [round_eq]
      rw [h3]
      omega
    · have h2 : q / 2 = (m : ℚ) + 3 / 4 := by
        rw [hq, hm]; push_cast; ring
      have h3 : round (q / 2) = m + 1 := by
        rw [h2, round_int_add]
        norm_num [round_eq]
      rw [h3]
      omega
  · rw [round_eq]
    have h1 : q + 1 / 2 < ((⌈q⌉ + 1 : ℤ) : ℚ) := by
      have h2 := Int.le_ceil q
      push_cast
      linarith
    have h3 : ⌊q + 1 / 2⌋ < ⌈q⌉ + 1 := Int.floor_lt.mpr h1
    omega

theorem round1_bounds {q : ℚ} (h0 : 0 ≤ q) (h100 : q ≤ 100) :
    0 ≤ round1 q ∧ round1 q ≤ 100 := by
  have hf : (0 : ℤ) ≤ ⌊10 * q⌋ := Int.floor_nonneg.mpr (by linarith)
  have hc : ⌈10 * q⌉ ≤ (1000 : ℤ) := Int.ceil_le.mpr (by push_cast; linarith)
  have h1 := floor_le_roundHalfEven (10 * q)
  have h2 := roundHalfEven_le_ceil (10 * q)
  have hlo : (0 : ℤ) ≤ roundHalfEven (10 * q) := le_trans hf h1
  have hhi : roundHalfEven (10 * q) ≤ 1000 := le_trans h2 hc
  have hlo' : (0 : ℚ) ≤ (roundHalfEven (10 * q) : ℚ) := by exact_mod_cast hlo
  have hhi' : ((roundHalfEven (10 * q) : ℚ)) ≤ 1000 := by exact_mod_cast hhi
  unfold round1
  constructor
  · linarith
  · linarith

theorem clamp_max_min_mem (x : ℚ) : 0 ≤ max (min x 1) 0 ∧ max (min x 1) 0 ≤ 1 :=
  ⟨le_max_right _ _, max_le (min_le_right _ _) zero_le_one⟩

theorem clamp_min_max_mem (x : ℚ) : 0 ≤ min (max x 0) 1 ∧ min (max x 0) 1 ≤ 1 :=
  ⟨le_min (le_max_right _ _) zero_le_one, min_le_right _ _⟩

theorem score_trend_mem (curr : IndicatorRow) (hatr : 0 < curr.atr) :
    0 ≤ score_trend curr ∧ score_trend curr ≤ 1 := by
  unfold score_trend
  have h1 : (0 : ℚ) ≤ |curr.close - curr.ema| / (curr.atr * 2.0) := by positivity
  have h2 : min (|curr.close - curr.ema| / (curr.atr * 2.0)) 1.0 ≤ 1.0 := min_le_right _ _
  have h3 : (0 : ℚ) ≤ min (|curr.close - curr.ema| / (curr.atr * 2.0)) 1.0 :=
    le_min h1 (by norm_num)
  have h4 : (0 : ℚ) ≤ min (max ((curr.adx - 20) / 25) 0) 1 :=
    (clamp_min_max_mem _).1
  have h5 : min (max ((curr.adx - 20) / 25) 0) 1 ≤ 1 := (clamp_min_max_mem _).2
  constructor
  · have : (0 : ℚ) ≤ (1.0 : ℚ) := by norm_num
    nlinarith
  · nlinarith

theorem score_mom_mem (bias : Bias) (curr : IndicatorRow) :
    0 ≤ score_mom bias curr ∧ score_mom bias curr ≤ 1 := by
  unfold score_mom
  split
  · exact clamp_max_min_mem _
  · split
    · exact clamp_max_min_mem _
    · norm_num

theorem score_vol_mem (curr : IndicatorRow) :
    0 ≤ score_vol curr ∧ score_vol curr ≤ 1 := by
  unfold score_vol
  exact clamp_min_max_mem _

theorem dist_to_break_nonneg (bias : Bias) (curr : IndicatorRow) (tick : Tick) :
    0 ≤ dist_to_break bias curr tick := by
  unfold dist_to_break
  split
  · exact abs_nonneg _
  · exact abs_nonneg _

theorem score_struct_mem (bias : Bias) (curr : IndicatorRow) (tick : Tick)
    (hatr : 0 < curr.atr) :
    0 ≤ score_struct bias curr tick ∧ score_struct bias curr tick ≤ 1 := by
  unfold score_struct
  have h1 : (0 : ℚ) ≤ dist_to_break bias curr tick / (curr.atr * 1.5) := by
    have := dist_to_break_nonneg bias curr tick
    positivity
  have h2 : min (dist_to_break bias curr tick / (curr.atr * 1.5)) 1.0 ≤ 1.0 :=
    min_le_right _ _
  have h3 : (0 : ℚ) ≤ min (dist_to_break bias curr tick / (curr.atr * 1.5)) 1.0 :=
    le_min h1 (by norm_num)
  constructor
  · nlinarith
  · nlinarith

theorem score_liq_mem (curr : IndicatorRow) (tick : Tick) (sym_info : SymbolInfo)
    (hatr : 0 < curr.atr) (hpoint : 0 < sym_info.point)
    (hspread : tick.bid ≤ tick.ask) :
    0 ≤ score_liq curr tick sym_info ∧ score_liq curr tick sym_info ≤ 1 := by
  simp only [score_liq]
  have hsp : (0 : ℚ) ≤ (tick.ask - tick.bid) / sym_info.point :=
    div_nonneg (by linarith) (le_of_lt hpoint)
  have hap : (0 : ℚ) < curr.atr / sym_info.point * 0.2 := by positivity
  have hdiv : (0 : ℚ) ≤ (tick.ask - tick.bid) / sym_info.point /
      (curr.atr / sym_info.point * 0.2) := div_nonneg hsp (le_of_lt hap)
  constructor
  · exact le_trans (by norm_num) (le_max_right _ _)
  · exact max_le (by nlinarith) (by norm_num)

theorem final_score_mem (bias : Bias) (curr : IndicatorRow) (tick : Tick)
    (sym_info : SymbolInfo) (hatr : 0 < curr.atr) (hpoint : 0 < sym_info.point)
    (hspread : tick.bid ≤ tick.ask) :
    0 ≤ final_score bias curr tick sym_info ∧ final_score bias curr tick sym_info ≤ 100 := by
  have ht := score_trend_mem curr hatr
  have hm := score_mom_mem bias curr
  have hv := score_vol_mem curr
  have hs := score_struct_mem bias curr tick hatr
  have hl := score_liq_mem curr tick sym_info hatr hpoint hspread
  unfold final_score
  apply round1_bounds
  · nlinarith [ht.1, hm.1, hv.1, hs.1, hl.1]
  · nlinarith [ht.2, hm.2, hv.2, hs.2, hl.2]

theorem analyze_symbol_eq_some (risk rr balance : ℚ) (inp : SymbolInput)
    (curr : IndicatorRow) (tick : Tick) (sym_info : SymbolInfo)
    (hcurr : inp.curr = some curr) (htick : inp.tick = some tick)
    (hsym : inp.sym_info = some sym_info) :
    analyze_symbol risk rr balance inp =
      some (build_opportunity risk rr balance inp.symbol curr tick sym_info) := by
  unfold analyze_symbol
  rw [hcurr, htick, hsym]

theorem biasOf_cases (close ema : ℚ) :
    (biasOf close ema = Bias.BULLISH ↔ ema < close) ∧
    (biasOf close ema = Bias.BEARISH ↔ close < ema) ∧
    (biasOf close ema = Bias.NEUTRAL ↔ close = ema) := by
  unfold biasOf
  rcases lt_trichotomy close ema with h | h | h
  · simp [h, lt_asymm h, ne_of_lt h]
  · subst h
    simp [lt_irrefl]
  · simp [h, lt_asymm h, ne_of_gt h]

/-! Concrete inputs used by the witnesses (scenario data from the design's
end-to-end example plus a NEUTRAL and a degenerate-sizing variant). -/

def currA : IndicatorRow :=
  { close := 1.1050, ema := 1.1000, atr := 0.0010, rsi := 70, adx := 35
  , dcu := 1.1060, dcl := 1.0980 }

def tickA : Tick := { bid := 1.1048, ask := 1.1052 }

def symA : SymbolInfo :=
  { point := 0.0001, trade_tick_value := 1.0, volume_min := 0.01
  , volume_max := 100.0, volume_step := 0.01 }

def inpA : SymbolInput :=
  { symbol := "EURUSD", curr := some currA, tick := some tickA, sym_info := some symA }

def oppA : Opportunity := build_opportunity 0.5 2.0 10000 "EURUSD" currA tickA symA

def currN : IndicatorRow :=
  { close := 1.1000, ema := 1.1000, atr := 0.0010, rsi := 50, adx := 30
  , dcu := 1.1020, dcl := 1.0980 }

def tickN : Tick := { bid := 1.0999, ask := 1.1001 }

def inpN : SymbolInput :=
  { symbol := "GBPUSD", curr := some currN, tick := some tickN, sym_info := some symA }

def oppN : Opportunity := build_opportunity 0.5 2.0 10000 "GBPUSD" currN tickN symA

def symZ : SymbolInfo :=
  { point := 0.0001, trade_tick_value := 0, volume_min := 0.01
  , volume_max := 100.0, volume_step := 0.01 }

def inpZ : SymbolInput :=
  { symbol := "US30", curr := some currA, tick := some tickA, sym_info := some symZ }

def inpBad : SymbolInput :=
  { symbol := "XAUUSD", curr := none, tick := none, sym_info := none }

/-- C1: for every symbol evaluation that produces an Opportunity, with the
five sub-scores computed from inputs with `volatility > 0`, `close > 0`,
`point_size > 0` and `ask ≥ bid`, every sub-score lies in `[0, 1]`, the
emitted score equals `round(100 * (0.30*trend + 0.20*momentum +
0.15*volatility + 0.25*structure + 0.10*liquidity), 1)`, the weights sum
to exactly 1, and hence the score lies in `[0, 100]`. -/
theorem C1_subscore_and_score_invariants (risk rr balance : ℚ) (inp : SymbolInput)
    (curr : IndicatorRow) (tick : Tick) (sym_info : SymbolInfo) (opp : Opportunity)
    (hcurr : inp.curr = some curr) (htick : inp.tick = some tick)
    (hsym : inp.sym_info = some sym_info)
    (hatr : 0 < curr.atr) (hclose : 0 < curr.close)
    (hpoint : 0 < sym_info.point) (hspread : tick.bid ≤ tick.ask)
    (hopp : analyze_symbol risk rr balance inp = some opp) :
    (0 ≤ score_trend curr ∧ score_trend curr ≤ 1) ∧
    (0 ≤ score_mom opp.bias curr ∧ score_mom opp.bias curr ≤ 1) ∧
    (0 ≤ score_vol curr ∧ score_vol curr ≤ 1) ∧
    (0 ≤ score_struct opp.bias curr tick ∧ score_struct opp.bias curr tick ≤ 1) ∧
    (0 ≤ score_liq curr tick sym_info ∧ score_liq curr tick sym_info ≤ 1) ∧
    (0.30 + 0.20 + 0.15 + 0.25 + 0.10 : ℚ) = 1 ∧
    opp.score = round1 (100 * ((0.30 * score_trend curr) +
      (0.20 * score_mom opp.bias curr) +
      (0.15 * score_vol curr) +
      (0.25 * score_struct opp.bias curr tick) +
      (0.10 * score_liq curr tick sym_info))) ∧
    0 ≤ opp.score ∧ opp.score ≤ 100 := by
  have hb : build_opportunity risk rr balance inp.symbol curr tick sym_info = opp := by
    have h2 := hopp
    rw [analyze_symbol_eq_some risk rr balance inp curr tick sym_info hcurr htick hsym] at h2
    exact Option.some.inj h2
  subst hb
  simp only [build_opportunity]
  exact ⟨score_trend_mem curr hatr,
    score_mom_mem _ curr,
    score_vol_mem curr,
    score_struct_mem _ curr tick hatr,
    score_liq_mem curr tick sym_info hatr hpoint hspread,
    by norm_num, rfl,
    final_score_mem _ curr tick sym_info hatr hpoint hspread⟩

/-- C1 witness: the theorem applied at the concrete bullish scenario. -/
theorem C1_witness :
    (0 ≤ score_trend currA ∧ score_trend currA ≤ 1) ∧
    (0 ≤ score_mom oppA.bias currA ∧ score_mom oppA.bias currA ≤ 1) ∧
    (0 ≤ score_vol currA ∧ score_vol currA ≤ 1) ∧
    (0 ≤ score_struct oppA.bias currA tickA ∧ score_struct oppA.bias currA tickA ≤ 1) ∧
    (0 ≤ score_liq currA tickA symA ∧ score_liq currA tickA symA ≤ 1) ∧
    (0.30 + 0.20 + 0.15 + 0.25 + 0.10 : ℚ) = 1 ∧
    oppA.score = round1 (100 * ((0.30 * score_trend currA) +
      (0.20 * score_mom oppA.bias currA) +
      (0.15 * score_vol currA) +
      (0.25 * score_struct oppA.bias currA tickA) +
      (0.10 * score_liq currA tickA symA))) ∧
    0 ≤ oppA.score ∧ oppA.score ≤ 100 :=
  C1_subscore_and_score_invariants 0.5 2.0 10000 inpA currA tickA symA oppA
    rfl rfl rfl (by norm_num [currA]) (by norm_num [currA])
    (by norm_num [symA]) (by norm_num [tickA])
    (analyze_symbol_eq_some 0.5 2.0 10000 inpA currA tickA symA rfl rfl rfl)

/-- Clamp-and-step behaviour of the final branch of `calculate_lot`:
for any quantized multiple `n * step`, the result of
`max lot vmin if lot <= vmax else vmax` is a multiple of `step` inside
`[vmin, vmax]`. -/
theorem clamp_step_spec (n : ℤ) (step vmin vmax : ℚ)
    (hminpos : 0 < vmin)
    (hminmul : ∃ k : ℤ, vmin = (k : ℚ) * step)
    (hmaxmul : ∃ k : ℤ, vmax = (k : ℚ) * step)
    (hminmax : vmin ≤ vmax) :
    0 ≤ (if (n : ℚ) * step ≤ vmax then max ((n : ℚ) * step) vmin else vmax) ∧
    vmin ≤ (if (n : ℚ) * step ≤ vmax then max ((n : ℚ) * step) vmin else vmax) ∧
    (if (n : ℚ) * step ≤ vmax then max ((n : ℚ) * step) vmin else vmax) ≤ vmax ∧
    ∃ k : ℤ, (if (n : ℚ) * step ≤ vmax then max ((n : ℚ) * step) vmin else vmax)
      = (k : ℚ) * step := by
  by_cases h : (n : ℚ) * step ≤ vmax
  · rw [if_pos h]
    refine ⟨le_trans (le_of_lt hminpos) (le_max_right _ _), le_max_right _ _,
      max_le h hminmax, ?_⟩
    rcases le_total ((n : ℚ) * step) vmin with h2 | h2
    · rw [max_eq_right h2]
      exact hminmul
    · rw [max_eq_left h2]
      exact ⟨n, rfl⟩
  · rw [if_neg h]
    exact ⟨le_trans (le_of_lt hminpos) hminmax, hminmax, le_refl _, hmaxmul⟩

/-- C4: for every lot-size computation with positive balance, risk percent,
tick value, stop distance, volume step, minimum and maximum (the minimum
and maximum being multiples of the step and ordered), the returned lot is
a non-negative multiple of `volume_step` lying in
`[volume_min, volume_max]`: quantized to the nearest step multiple, capped
at the maximum, floored at the minimum (never rejected, never a nonzero
value below the minimum). -/
theorem C4_lot_quantization (risk balance : ℚ) (info : SymbolInfo) (sl_points : ℚ)
    (hbal : 0 < balance) (hrisk : 0 < risk) (htv : 0 < info.trade_tick_value)
    (hsl : 0 < sl_points) (hstep : 0 < info.volume_step)
    (hminpos : 0 < info.volume_min) (hmaxpos : 0 < info.volume_max)
    (hminmul : ∃ k : ℤ, info.volume_min = (k : ℚ) * info.volume_step)
    (hmaxmul : ∃ k : ℤ, info.volume_max = (k : ℚ) * info.volume_step)
    (hminmax : info.volume_min ≤ info.volume_max) :
    0 ≤ calculate_lot risk balance (some info) sl_points ∧
    info.volume_min ≤ calculate_lot risk balance (some info) sl_points ∧
    calculate_lot risk balance (some info) sl_points ≤ info.volume_max ∧
    ∃ k : ℤ, calculate_lot risk balance (some info) sl_points
      = (k : ℚ) * info.volume_step := by
  have hcond : ¬ (info.trade_tick_value = 0 ∨ sl_points = 0) := by
    push_neg
    exact ⟨ne_of_gt htv, ne_of_gt hsl⟩
  simp only [calculate_lot]
  rw [if_neg hcond]
  exact clamp_step_spec _ _ _ _ hminpos hminmul hmaxmul hminmax

/-- C4 witness: the theorem applied at the concrete metadata of the
bullish scenario with a 15-point stop distance. -/
theorem C4_witness :
    0 ≤ calculate_lot 0.5 10000 (some symA) 15 ∧
    symA.volume_min ≤ calculate_lot 0.5 10000 (some symA) 15 ∧
    calculate_lot 0.5 10000 (some symA) 15 ≤ symA.volume_max ∧
    ∃ k : ℤ, calculate_lot 0.5 10000 (some symA) 15 = (k : ℚ) * symA.volume_step :=
  C4_lot_quantization 0.5 10000 symA 15 (by norm_num) (by norm_num)
    (by norm_num [symA]) (by norm_num) (by norm_num [symA]) (by norm_num [symA])
    (by norm_num [symA]) ⟨1, by norm_num [symA]⟩ ⟨10000, by norm_num [symA]⟩
    (by norm_num [symA])

/-- C5: for every emitted Opportunity, the bias is BULLISH iff
`close > trend_filter`, BEARISH iff `close < trend_filter`, and NEUTRAL
iff they are equal. -/
theorem C5_bias_characterization (risk rr balance : ℚ) (inp : SymbolInput)
    (curr : IndicatorRow) (tick : Tick) (sym_info : SymbolInfo) (opp : Opportunity)
    (hcurr : inp.curr = some curr) (htick : inp.tick = some tick)
    (hsym : inp.sym_info = some sym_info)
    (hopp : analyze_symbol risk rr balance inp = some opp) :
    (opp.bias = Bias.BULLISH ↔ curr.close > curr.ema) ∧
    (opp.bias = Bias.BEARISH ↔ curr.close < curr.ema) ∧
    (opp.bias = Bias.NEUTRAL ↔ curr.close = curr.ema) := by
  have hb : build_opportunity risk rr balance inp.symbol curr tick sym_info = opp := by
    have h2 := hopp
    rw [analyze_symbol_eq_some risk rr balance inp curr tick sym_info hcurr htick hsym] at h2
    exact Option.some.inj h2
  subst hb
  simp only [build_opportunity]
  exact biasOf_cases curr.close curr.ema

/-- C5 witness: the theorem applied at the concrete bullish scenario. -/
theorem C5_witness :
    (oppA.bias = Bias.BULLISH ↔ currA.close > currA.ema) ∧
    (oppA.bias = Bias.BEARISH ↔ currA.close < currA.ema) ∧
    (oppA.bias = Bias.NEUTRAL ↔ currA.close = currA.ema) :=
  C5_bias_characterization 0.5 2.0 10000 inpA currA tickA symA oppA rfl rfl rfl
    (analyze_symbol_eq_some 0.5 2.0 10000 inpA currA tickA symA rfl rfl rfl)

/-- C3: every emitted BULLISH Opportunity has `entry = ask`,
`stop = entry - 1.5 * volatility` and
`target = entry + (entry - stop) * rr_ratio` (so
`target - entry = rr_ratio * (entry - stop)`); every emitted BEARISH
Opportunity has `entry = bid`, `stop = entry + 1.5 * volatility` and
`target = entry - (stop - entry) * rr_ratio`. -/
theorem C3_trade_setup (risk rr balance : ℚ) (inp : SymbolInput)
    (curr : IndicatorRow) (tick : Tick) (sym_info : SymbolInfo) (opp : Opportunity)
    (hcurr : inp.curr = some curr) (htick : inp.tick = some tick)
    (hsym : inp.sym_info = some sym_info)
    (hopp : analyze_symbol risk rr balance inp = some opp) :
    (opp.bias = Bias.BULLISH →
      opp.price = tick.ask ∧
      opp.sl = opp.price - 1.5 * curr.atr ∧
      opp.tp = opp.price + (opp.price - opp.sl) * rr ∧
      opp.tp - opp.price = rr * (opp.price - opp.sl)) ∧
    (opp.bias = Bias.BEARISH →
      opp.price = tick.bid ∧
      opp.sl = opp.price + 1.5 * curr.atr ∧
      opp.tp = opp.price - (opp.sl - opp.price) * rr ∧
      opp.price - opp.tp = rr * (opp.sl - opp.price)) := by
  have hb : build_opportunity risk rr balance inp.symbol curr tick sym_info = opp := by
    have h2 := hopp
    rw [analyze_symbol_eq_some risk rr balance inp curr tick sym_info hcurr htick hsym] at h2
    exact Option.some.inj h2
  subst hb
  simp only [build_opportunity]
  constructor
  · intro hbias
    rw [hbias]
    refine ⟨?_, ?_, ?_, ?_⟩ <;> simp [entry_of, sl_of, tp_of, ATR_MULTIPLIER] <;> ring
  · intro hbias
    rw [hbias]
    refine ⟨?_, ?_, ?_, ?_⟩ <;> simp [entry_of, sl_of, tp_of, ATR_MULTIPLIER] <;> ring

/-- C3 witness: the bullish branch of the theorem applied at the concrete
bullish scenario. -/
theorem C3_witness :
    oppA.price = tickA.ask ∧
    oppA.sl = oppA.price - 1.5 * currA.atr ∧
    oppA.tp = oppA.price + (oppA.price - oppA.sl) * 2.0 ∧
    oppA.tp - oppA.price = 2.0 * (oppA.price - oppA.sl) :=
  (C3_trade_setup 0.5 2.0 10000 inpA currA tickA symA oppA rfl rfl rfl
    (analyze_symbol_eq_some 0.5 2.0 10000 inpA currA tickA symA rfl rfl rfl)).1
    (by norm_num [oppA, build_opportunity, biasOf, currA])

/-- C2 counterexample: a symbol whose close equals the trend filter
(NEUTRAL bias) is NOT skipped — `analyze_symbol` still emits a full
Opportunity (with bias NEUTRAL), refuting the claim that a NEUTRAL bias
is treated like a missing input. -/
theorem C2_counterexample :
    currN.close = currN.ema ∧
    analyze_symbol 0.5 2.0 10000 inpN = some oppN ∧
    oppN.bias = Bias.NEUTRAL := by
  refine ⟨rfl, analyze_symbol_eq_some 0.5 2.0 10000 inpN currN tickN symA rfl rfl rfl, ?_⟩
  show biasOf currN.close currN.ema = Bias.NEUTRAL
  norm_num [biasOf, currN]

/-- C2 amended: a NEUTRAL bias does not cause the symbol evaluation to be
skipped — an Opportunity with bias NEUTRAL is still emitted; only a
missing indicator row, missing quote, or missing metadata causes the
evaluation to be skipped for the cycle. -/
theorem C2_neutral_not_skipped (risk rr balance : ℚ) (inp : SymbolInput)
    (curr : IndicatorRow) (tick : Tick) (sym_info : SymbolInfo)
    (hcurr : inp.curr = some curr) (htick : inp.tick = some tick)
    (hsym : inp.sym_info = some sym_info)
    (hneutral : curr.close = curr.ema) :
    (∃ opp, analyze_symbol risk rr balance inp = some opp ∧ opp.bias = Bias.NEUTRAL) ∧
    (∀ inp2 : SymbolInput,
      inp2.curr = none ∨ inp2.tick = none ∨ inp2.sym_info = none →
      analyze_symbol risk rr balance inp2 = none) := by
  constructor
  · refine ⟨build_opportunity risk rr balance inp.symbol curr tick sym_info,
      analyze_symbol_eq_some risk rr balance inp curr tick sym_info hcurr htick hsym, ?_⟩
    show biasOf curr.close curr.ema = Bias.NEUTRAL
    exact ((biasOf_cases curr.close curr.ema).2.2).mpr hneutral
  · intro inp2 h
    obtain ⟨s, c, t, si⟩ := inp2
    dsimp only at h
    rcases h with h | h | h
    · subst h
      rfl
    · subst h
      cases c <;> rfl
    · subst h
      cases c
      · rfl
      · cases t <;> rfl

/-- C2 witness: the amended theorem applied at the concrete NEUTRAL
scenario. -/
theorem C2_witness :
    (∃ opp, analyze_symbol 0.5 2.0 10000 inpN = some opp ∧ opp.bias = Bias.NEUTRAL) ∧
    (∀ inp2 : SymbolInput,
      inp2.curr = none ∨ inp2.tick = none ∨ inp2.sym_info = none →
      analyze_symbol 0.5 2.0 10000 inp2 = none) :=
  C2_neutral_not_skipped 0.5 2.0 10000 inpN currN tickN symA rfl rfl rfl rfl

/-- C10: an emitted Opportunity whose bias is NEUTRAL takes the bearish
`else` branches: momentum sub-score 0, structure distance measured from
the bid to the channel low, entry at the bid, stop at
`entry + 1.5 * volatility`, and target `entry - (stop - entry) * rr`. -/
theorem C10_neutral_takes_bearish_path (risk rr balance : ℚ) (inp : SymbolInput)
    (curr : IndicatorRow) (tick : Tick) (sym_info : SymbolInfo) (opp : Opportunity)
    (hcurr : inp.curr = some curr) (htick : inp.tick = some tick)
    (hsym : inp.sym_info = some sym_info)
    (hneutral : curr.close = curr.ema)
    (hopp : analyze_symbol risk rr balance inp = some opp) :
    opp.bias = Bias.NEUTRAL ∧
    score_mom opp.bias curr = 0 ∧
    dist_to_break opp.bias curr tick = |tick.bid - curr.dcl| ∧
    opp.price = tick.bid ∧
    opp.sl = opp.price + 1.5 * curr.atr ∧
    opp.tp = opp.price - (opp.sl - opp.price) * rr := by
  have hb : build_opportunity risk rr balance inp.symbol curr tick sym_info = opp := by
    have h2 := hopp
    rw [analyze_symbol_eq_some risk rr balance inp curr tick sym_info hcurr htick hsym] at h2
    exact Option.some.inj h2
  subst hb
  have hN : biasOf curr.close curr.ema = Bias.NEUTRAL :=
    ((biasOf_cases curr.close curr.ema).2.2).mpr hneutral
  have hne1 : Bias.NEUTRAL ≠ Bias.BULLISH := fun hx => nomatch hx
  have hne2 : Bias.NEUTRAL ≠ Bias.BEARISH := fun hx => nomatch hx
  simp only [build_opportunity]
  rw [hN]
  refine ⟨rfl, ?_, ?_, ?_, ?_, ?_⟩
  · norm_num [score_mom, hne1, hne2]
  · norm_num [dist_to_break, hne1]
  · norm_num [entry_of, hne1]
  · simp [sl_of, entry_of, ATR_MULTIPLIER, hne1]
    ring
  · simp [tp_of, hne1]

/-- C10 witness: the theorem applied at the concrete NEUTRAL scenario. -/
theorem C10_witness :
    oppN.bias = Bias.NEUTRAL ∧
    score_mom oppN.bias currN = 0 ∧
    dist_to_break oppN.bias currN tickN = |tickN.bid - currN.dcl| ∧
    oppN.price = tickN.bid ∧
    oppN.sl = oppN.price + 1.5 * currN.atr ∧
    oppN.tp = oppN.price - (oppN.sl - oppN.price) * 2.0 :=
  C10_neutral_takes_bearish_path 0.5 2.0 10000 inpN currN tickN symA oppN
    rfl rfl rfl rfl
    (analyze_symbol_eq_some 0.5 2.0 10000 inpN currN tickN symA rfl rfl rfl)

/-- C8: when the tick value is zero or the stop distance in points is
zero, the lot size is exactly zero while the Opportunity (score, bias,
entry, stop, target) is still emitted. -/
theorem C8_degenerate_sizing (risk rr balance : ℚ) (inp : SymbolInput)
    (curr : IndicatorRow) (tick : Tick) (sym_info : SymbolInfo)
    (hcurr : inp.curr = some curr) (htick : inp.tick = some tick)
    (hsym : inp.sym_info = some sym_info)
    (hdeg : sym_info.trade_tick_value = 0 ∨
      |curr.atr * ATR_MULTIPLIER| / sym_info.point = 0) :
    ∃ opp, analyze_symbol risk rr balance inp = some opp ∧
      opp.lots = 0 ∧
      opp.score = final_score opp.bias curr tick sym_info ∧
      opp.price = entry_of opp.bias tick ∧
      opp.sl = sl_of opp.bias curr tick ∧
      opp.tp = tp_of opp.bias curr tick rr := by
  have hdist : ∀ b : Bias,
      |entry_of b tick - sl_of b curr tick| = |curr.atr * ATR_MULTIPLIER| := by
    intro b
    by_cases hb : b = Bias.BULLISH
    · rw [hb]
      simp only [entry_of, sl_of, if_pos]
      rw [show tick.ask - (tick.ask - curr.atr * ATR_MULTIPLIER)
          = curr.atr * ATR_MULTIPLIER from by ring]
    · simp only [entry_of, sl_of, if_neg hb]
      rw [show tick.bid - (tick.bid + curr.atr * ATR_MULTIPLIER)
          = -(curr.atr * ATR_MULTIPLIER) from by ring, abs_neg]
  refine ⟨build_opportunity risk rr balance inp.symbol curr tick sym_info,
    analyze_symbol_eq_some risk rr balance inp curr tick sym_info hcurr htick hsym,
    ?_, rfl, rfl, rfl, rfl⟩
  show calculate_lot risk balance (some sym_info)
      (|entry_of (biasOf curr.close curr.ema) tick -
        sl_of (biasOf curr.close curr.ema) curr tick| / sym_info.point) = 0
  rw [hdist (biasOf curr.close curr.ema)]
  simp only [calculate_lot]
  rw [if_pos hdeg]
  norm_num

/-- C8 witness: the theorem applied at the bullish scenario with a
zero tick value. -/
theorem C8_witness :
    ∃ opp, analyze_symbol 0.5 2.0 10000 inpZ = some opp ∧
      opp.lots = 0 ∧
      opp.score = final_score opp.bias currA tickA symZ ∧
      opp.price = entry_of opp.bias tickA ∧
      opp.sl = sl_of opp.bias currA tickA ∧
      opp.tp = tp_of opp.bias currA tickA 2.0 :=
  C8_degenerate_sizing 0.5 2.0 10000 inpZ currA tickA symZ rfl rfl rfl (Or.inl rfl)

/-- C9 counterexample: before any start command, the worker state built
by `ScannerWorker.__init__` has `rr_ratio = 1.5`, not the claimed
default of `2.0` (the 2.0 is the GUI spin-box default, not the worker
field). -/
theorem C9_counterexample :
    ScannerWorker.init.risk_per_trade = 0.5 ∧
    ScannerWorker.init.rr_ratio = 1.5 ∧
    ¬ ScannerWorker.init.rr_ratio = 2.0 := by
  refine ⟨rfl, rfl, ?_⟩
  show ¬ (1.5 : ℚ) = 2.0
  norm_num

/-- C9 amended: before any start command configures the core, the worker
state has risk percent 0.5 and reward:risk ratio 1.5. -/
theorem C9_init_defaults :
    ScannerWorker.init.risk_per_trade = 0.5 ∧
    ScannerWorker.init.rr_ratio = 1.5 :=
  ⟨rfl, rfl⟩

/-- Transitivity of the descending-score comparison used by the sort. -/
theorem score_le_trans : ∀ a b c : Opportunity,
    decide (b.score ≤ a.score) = true → decide (c.score ≤ b.score) = true →
    decide (c.score ≤ a.score) = true := by
  intro a b c hab hbc
  rw [decide_eq_true_eq] at hab hbc ⊢
  exact le_trans hbc hab

/-- Totality of the descending-score comparison used by the sort. -/
theorem score_le_total : ∀ a b : Opportunity,
    (decide (b.score ≤ a.score) || decide (a.score ≤ b.score)) = true := by
  intro a b
  rcases le_total b.score a.score with h | h
  · simp [h]
  · simp [h]

/-- C6: the cycle result is sorted by score in non-increasing order, is a
permutation of the discovery-ordered successes, and the sort is stable —
Opportunities of any fixed score appear in the same order as they were
discovered. -/
theorem C6_sorted_descending_stable (risk rr balance : ℚ) (inputs : List SymbolInput) :
    (scan_cycle risk rr balance inputs).Pairwise (fun a b => b.score ≤ a.score) ∧
    (scan_cycle risk rr balance inputs).Perm
      (inputs.filterMap (analyze_symbol risk rr balance)) ∧
    ∀ s : ℚ,
      (scan_cycle risk rr balance inputs).filter (fun o => decide (o.score = s)) =
        (inputs.filterMap (analyze_symbol risk rr balance)).filter
          (fun o => decide (o.score = s)) := by
  refine ⟨?_, ?_, ?_⟩
  · have hs := List.sorted_mergeSort score_le_trans score_le_total
      (inputs.filterMap (analyze_symbol risk rr balance))
    unfold scan_cycle
    exact hs.imp (fun h => of_decide_eq_true h)
  · unfold scan_cycle
    exact List.mergeSort_perm _ _
  · intro s
    unfold scan_cycle
    have hpw : ((inputs.filterMap (analyze_symbol risk rr balance)).filter
        (fun o => decide (o.score = s))).Pairwise
        (fun a b => decide (b.score ≤ a.score) = true) := by
      apply List.pairwise_of_forall_mem_list
      intro a ha b hb
      have ha2 : a.score = s := of_decide_eq_true ((List.mem_filter.mp ha).2)
      have hb2 : b.score = s := of_decide_eq_true ((List.mem_filter.mp hb).2)
      rw [decide_eq_true_eq, ha2, hb2]
    have hsub := List.sublist_mergeSort score_le_trans score_le_total hpw
      (List.filter_sublist (l := inputs.filterMap (analyze_symbol risk rr balance)))
    have hsub2 := hsub.filter (fun o => decide (o.score = s))
    have hfe : (((inputs.filterMap (analyze_symbol risk rr balance)).filter
          (fun o => decide (o.score = s))).filter (fun o => decide (o.score = s)))
        = (inputs.filterMap (analyze_symbol risk rr balance)).filter
          (fun o => decide (o.score = s)) := by
      simp [List.filter_filter]
    rw [hfe] at hsub2
    have hperm := (List.mergeSort_perm
      (inputs.filterMap (analyze_symbol risk rr balance))
      (fun a b => decide (b.score ≤ a.score))).filter
      (fun o => decide (o.score = s))
    exact (hsub2.eq_of_length hperm.length_eq.symm).symm

/-- C7: a failing symbol is excluded from the cycle and leaves every
other symbol's Opportunity unchanged, and every Opportunity in a cycle
result is the complete output of `analyze_symbol` on one of the cycle's
inputs (no partial or malformed Opportunity). -/
theorem C7_fault_isolation (risk rr balance : ℚ) (xs ys : List SymbolInput)
    (bad : SymbolInput)
    (hbad : analyze_symbol risk rr balance bad = none) :
    scan_cycle risk rr balance (xs ++ bad :: ys) = scan_cycle risk rr balance (xs ++ ys) ∧
    ∀ opp ∈ scan_cycle risk rr balance (xs ++ bad :: ys),
      ∃ inp ∈ xs ++ bad :: ys, analyze_symbol risk rr balance inp = some opp := by
  constructor
  · unfold scan_cycle
    simp [List.filterMap_append, List.filterMap_cons, hbad]
  · intro opp hm
    unfold scan_cycle at hm
    rw [List.mem_mergeSort] at hm
    rcases List.mem_filterMap.mp hm with ⟨inp, hin, heq⟩
    exact ⟨inp, hin, heq⟩

/-- C7 witness: the theorem applied to a two-symbol cycle where the
second symbol's fetches all fail. -/
theorem C7_witness :
    scan_cycle 0.5 2.0 10000 ([inpA] ++ inpBad :: []) = scan_cycle 0.5 2.0 10000 ([inpA] ++ []) ∧
    ∀ opp ∈ scan_cycle 0.5 2.0 10000 ([inpA] ++ inpBad :: []),
      ∃ inp ∈ [inpA] ++ inpBad :: [], analyze_symbol 0.5 2.0 10000 inp = some opp :=
  C7_fault_isolation 0.5 2.0 10000 [inpA] [] inpBad rfl

theorem fract_eval {q : ℚ} {m : ℤ} (h : ⌊q⌋ = m) : Int.fract q = q - m := by
  rw [Int.fract, h]

theorem roundHalfEven_of_ne_half {q : ℚ} {n : ℤ} (hne : Int.fract q ≠ 1 / 2)
    (h : ⌊q + 1 / 2⌋ = n) : roundHalfEven q = n := by
  unfold roundHalfEven
  rw [if_neg hne, round_eq, h]

theorem round1_eval {x : ℚ} {n : ℤ} (hne : Int.fract (10 * x) ≠ 1 / 2)
    (h : ⌊10 * x + 1 / 2⌋ = n) : round1 x = (n : ℚ) / 10 := by
  unfold round1
  rw [roundHalfEven_of_ne_half hne h]

theorem score_trend_A : score_trend currA = 0.84 := by
  have habs : |currA.close - currA.ema| = 0.005 := by
    rw [show currA.close - currA.ema = 0.005 from by norm_num [currA]]
    exact abs_of_nonneg (by norm_num)
  simp only [score_trend]
  rw [habs]
  norm_num [currA, min_def, max_def]

theorem score_mom_A : score_mom Bias.BULLISH currA = 0.8 := by
  norm_num [score_mom, currA, min_def, max_def]

theorem score_vol_A : score_vol currA = 179 / 884 := by
  simp only [score_vol]
  norm_num [currA, min_def, max_def]

theorem score_struct_A : score_struct Bias.BULLISH currA tickA = 7 / 15 := by
  have habs : |currA.dcu - tickA.ask| = 0.0008 := by
    rw [show currA.dcu - tickA.ask = 0.0008 from by norm_num [currA, tickA]]
    exact abs_of_nonneg (by norm_num)
  simp only [score_struct, dist_to_break, if_pos]
  rw [habs]
  norm_num [currA, min_def]

theorem score_liq_A : score_liq currA tickA symA = 0 := by
  simp only [score_liq]
  norm_num [currA, tickA, symA, max_def]

theorem final_score_A : final_score Bias.BULLISH currA tickA symA = 55.9 := by
  unfold final_score
  rw [score_trend_A, score_mom_A, score_vol_A, score_struct_A, score_liq_A]
  rw [show (100 : ℚ) * ((0.30 * 0.84) + (0.20 * 0.8) + (0.15 * (179 / 884)) +
      (0.25 * (7 / 15)) + (0.10 * 0)) = 741287 / 13260 from by norm_num]
  have hfl : ⌊(10 : ℚ) * (741287 / 13260) + 1 / 2⌋ = (559 : ℤ) := by
    norm_num [Int.floor_eq_iff]
  have hfr : Int.fract ((10 : ℚ) * (741287 / 13260)) ≠ 1 / 2 := by
    have hfl2 : ⌊(10 : ℚ) * (741287 / 13260)⌋ = (559 : ℤ) := by
      norm_num [Int.floor_eq_iff]
    rw [fract_eval hfl2]
    norm_num
  rw [round1_eval hfr hfl]
  norm_num

theorem lots_A : calculate_lot 0.5 10000 (some symA) 15 = 3.33 := by
  have hrhe : roundHalfEven ((1000 : ℚ) / 3) = 333 := by
    apply roundHalfEven_of_ne_half
    · have hfl2 : ⌊(1000 : ℚ) / 3⌋ = (333 : ℤ) := by norm_num [Int.floor_eq_iff]
      rw [fract_eval hfl2]
      norm_num
    · norm_num [Int.floor_eq_iff]
  simp only [calculate_lot]
  rw [if_neg (by norm_num [symA])]
  rw [show (10000 : ℚ) * (0.5 / 100.0) / (15 * symA.trade_tick_value) / symA.volume_step
      = 1000 / 3 from by norm_num [symA]]
  rw [hrhe]
  norm_num [symA, max_def]

theorem oppA_eval :
    oppA.symbol = "EURUSD" ∧ oppA.score = 55.9 ∧ oppA.bias = Bias.BULLISH ∧
    oppA.price = 1.1052 ∧ oppA.sl = 1.1037 ∧ oppA.tp = 1.1082 ∧
    oppA.lots = 3.33 ∧ oppA.adx = 35 := by
  have hbias : biasOf currA.close currA.ema = Bias.BULLISH := by
    norm_num [biasOf, currA]
  refine ⟨rfl, ?_, ?_, ?_, ?_, ?_, ?_, rfl⟩
  · show final_score (biasOf currA.close currA.ema) currA tickA symA = 55.9
    rw [hbias]
    exact final_score_A
  · exact hbias
  · show entry_of (biasOf currA.close currA.ema) tickA = 1.1052
    rw [hbias]
    norm_num [entry_of, tickA]
  · show sl_of (biasOf currA.close currA.ema) currA tickA = 1.1037
    rw [hbias]
    norm_num [sl_of, entry_of, ATR_MULTIPLIER, currA, tickA]
  · show tp_of (biasOf currA.close currA.ema) currA tickA 2.0 = 1.1082
    rw [hbias]
    norm_num [tp_of, sl_of, entry_of, ATR_MULTIPLIER, currA, tickA]
  · show calculate_lot 0.5 10000 (some symA)
      (|entry_of (biasOf currA.close currA.ema) tickA -
        sl_of (biasOf currA.close currA.ema) currA tickA| / symA.point) = 3.33
    rw [hbias]
    have habs : |entry_of Bias.BULLISH tickA - sl_of Bias.BULLISH currA tickA| = 0.0015 := by
      rw [show entry_of Bias.BULLISH tickA - sl_of Bias.BULLISH currA tickA = 0.0015 from by
        norm_num [entry_of, sl_of, ATR_MULTIPLIER, currA, tickA]]
      exact abs_of_nonneg (by norm_num)
    rw [habs]
    rw [show (0.0015 : ℚ) / symA.point = 15 from by norm_num [symA]]
    exact lots_A
